import Mathlib

/-!
Verification of the ts-trove univariate EDA engine against its
natural-language specification.

The Python source (src/ts_trove/eda/univaritate_eda.py and
src/ts_trove/eda/univariate_eda_report.py) is shallowly embedded below.
Timestamps are modelled as integers (seconds since an epoch), values as
rationals (callers supply clean numeric series per the spec, so no NaN
channel is modelled).  Pandas and statsmodels library calls that the
source delegates to are embedded by their documented behaviour:

- pandas.infer_freq raises ValueError when the index has fewer than three
  values; for a constant positive spacing it infers the corresponding
  fixed frequency (modelled here as the spacing itself, in seconds); for
  inconsistent spacings it returns None.
- pandas.date_range(start, end, freq=None) substitutes the daily
  frequency "D" when freq is None and periods is not given, and
  enumerates start, start+d, ... up to end inclusive.
- pandas.DatetimeIndex.difference returns the sorted elements of the
  first index that are absent from the second.
- statsmodels acf slices the sample autocovariance sequence to
  nlags+1 entries and normalises by the lag-0 autocovariance; it
  performs no positivity or upper-bound validation of nlags.
- statsmodels pacf raises ValueError when nlags is at least half the
  number of observations, and otherwise runs a Yule-Walker style
  recursion (Durbin-Levinson) on the sample autocorrelations.
- statsmodels adfuller is an external numeric routine; its output tuple
  is abstracted as an input record, since the engine only post-processes
  that tuple.
-/

deriving instance DecidableEq for Except

/-- A pandas Series as held by the engine: a dtype flag for the index
(true when the index is a datetime64 type) and the ordered
(timestamp, value) pairs. -/
structure PdSeries where
  is_datetime_index : Bool
  data : List (Int × Rat)
deriving DecidableEq

/-- The EDA engine: holds exactly one series (self.ts). -/
structure UnivariateEDA where
  ts : PdSeries
deriving DecidableEq

/-- Errors raised by describe_time_index: the explicit ValueError for a
non-datetime index, and the ValueError pandas.infer_freq raises when the
index has fewer than three values. -/
inductive EdaError where
  | invalidIndexType
  | needThreeDates
deriving DecidableEq

/-- Errors raised inside the statsmodels calls: the pacf lag guard and an
unrecognised resampling frequency string. -/
inductive StatError where
  | pacfLagTooLarge
  | unknownFreq
deriving DecidableEq

/-- Result dictionary of describe_time_index.  The inferred frequency is
modelled as the period length in seconds (pandas returns an equivalent
frequency string such as "h" for 3600). -/
structure TimeIndexDescription where
  inferred_frequency : Option Int
  start_time : Int
  end_time : Int
  n_missing_timestamps : Nat
  missing_timestamps : List Int
deriving DecidableEq

/-- Checks that consecutive entries of a list of timestamps are spaced
exactly d apart. -/
def deltasAre (d : Int) : List Int → Bool
  | a :: b :: r => decide (b - a = d) && deltasAre d (b :: r)
  | _ => true

/-- Models pandas.infer_freq on a timestamp list: fewer than three
timestamps raise ValueError; a constant positive spacing d is inferred as
the fixed frequency of period d; anything else yields None. -/
def inferFreq : List Int → Except EdaError (Option Int)
  | idx@(a :: b :: _ :: _) =>
      let d := b - a
      if 0 < d ∧ deltasAre d idx then Except.ok (some d) else Except.ok none
  | _ => Except.error EdaError.needThreeDates

/-- Models pandas.date_range(start=s, end=e, freq=d): the grid
s, s+d, s+2d, ... truncated at e (inclusive); empty when e < s. -/
def dateRange (s e d : Int) : List Int :=
  if d ≤ 0 ∨ e < s then []
  else (List.range (((e - s) / d).toNat + 1)).map (fun k : Nat => s + (k : Int) * d)

namespace UnivariateEDA

/-- Embeds UnivariateEDA.describe_time_index: check the index dtype,
infer the frequency, take min and max of the index, build the complete
grid with pandas.date_range (whose freq argument defaults to daily, 86400
seconds, when the inferred frequency is None), and report the grid points
absent from the index. -/
def describe_time_index (e : UnivariateEDA) : Except EdaError TimeIndexDescription :=
  if e.ts.is_datetime_index = false then Except.error EdaError.invalidIndexType
  else
    let idx := e.ts.data.map Prod.fst
    (inferFreq idx).bind (fun fr =>
      match idx with
      | [] => Except.error EdaError.needThreeDates
      | x :: r =>
        let start_time := List.foldl min x r
        let end_time := List.foldl max x r
        let full_time_index := dateRange start_time end_time (fr.getD 86400)
        let missing := full_time_index.filter (fun t => decide (t ∉ idx))
        Except.ok
          { inferred_frequency := fr
            start_time := start_time
            end_time := end_time
            n_missing_timestamps := missing.length
            missing_timestamps := missing })

end UnivariateEDA

/-- Embeds Series.diff().dropna() on a clean series: entry i of the
result is the timestamp of entry i+1 of the source paired with the value
difference, the NaN produced at position 0 by diff being the one entry
dropna removes. -/
def seriesDiff (l : List (Int × Rat)) : List (Int × Rat) :=
  List.zipWith (fun p q => (q.1, q.2 - p.2)) l l.tail

/-- Arithmetic mean of a list of rationals, as computed by Series.mean
and by the mean aggregation of Series.resample. -/
def listMean (l : List Rat) : Rat := l.sum / l.length

/-- Minimum of a value list (Series.min); 0 on the empty list, which the
spec excludes by its clean-series precondition. -/
def qMin : List Rat → Rat
  | [] => 0
  | x :: r => r.foldl min x

/-- Maximum of a value list (Series.max). -/
def qMax : List Rat → Rat
  | [] => 0
  | x :: r => r.foldl max x

/-- Models Series.quantile with the default linear interpolation: the
value at fractional position p * (n - 1) of the sorted values. -/
def pdQuantile (l : List Rat) (p : Rat) : Rat :=
  let s := l.insertionSort (fun a b => a ≤ b)
  let h := p * ((l.length : Rat) - 1)
  let i := h.floor.toNat
  let lo := s.getD i 0
  let hi := s.getD (i + 1) lo
  lo + (h - (i : Rat)) * (hi - lo)

/-- Biased central moment of order k, the building block of the pandas
skewness and kurtosis formulas. -/
def centralMoment (l : List Rat) (k : Nat) : Rat :=
  (l.map (fun x => (x - listMean l) ^ k)).sum / l.length

/-- Sample variance with one delta degree of freedom (Series.std squared). -/
def sampleVar (l : List Rat) : Rat :=
  (l.map (fun x => (x - listMean l) ^ 2)).sum / ((l.length : Rat) - 1)

/-- Models Series.skew: the adjusted Fisher-Pearson standardized moment
coefficient sqrt(n(n-1))/(n-2) times m3 over m2 to the power 3/2. -/
noncomputable def pdSkew (l : List Rat) : Real :=
  let n : Real := l.length
  Real.sqrt (n * (n - 1)) / (n - 2) *
    ((centralMoment l 3 : Rat) / Real.sqrt (((centralMoment l 2 : Rat) : Real) ^ 3))

/-- Models Series.kurtosis: the bias-corrected excess kurtosis, which is
rational in the data. -/
def pdKurt (l : List Rat) : Rat :=
  let n : Rat := l.length
  ((n + 1) * (centralMoment l 4 / centralMoment l 2 ^ 2 - 3) + 6) *
    (n - 1) / ((n - 2) * (n - 3))

/-- Result dictionary of describe_distribution. -/
structure DistributionSummary where
  min : Rat
  percentile_25 : Rat
  percentile_50 : Rat
  percentile_75 : Rat
  max : Rat
  range : Rat
  mean : Rat
  std_dev : Real
  skewness : Real
  kurtosis : Rat

/-- Output tuple of the external statsmodels adfuller routine, abstracted
as an input record: statistic, p-value, lag order used, observation
count, the critical values reported under the keys 1 percent, 5 percent
and 10 percent, and the information-criterion value. -/
structure AdfResult where
  adf_statistic : Rat
  p_value : Rat
  used_lag : Nat
  n_obs : Nat
  critical_value_1 : Rat
  critical_value_5 : Rat
  critical_value_10 : Rat
  ic_best : Rat
deriving DecidableEq

/-- Result dictionary of describe_stationarity: the adfuller fields
flattened plus the derived stationarity verdict. -/
structure StationarityResult where
  adf_statistic : Rat
  p_value : Rat
  used_lag : Nat
  n_obs : Nat
  critical_value_1 : Rat
  critical_value_5 : Rat
  critical_value_10 : Rat
  ic_best : Rat
  stationarity : Bool
deriving DecidableEq

/-- Sample autocovariance sequence of statsmodels acovf with the default
denominator n at every lag. -/
def acovfList (xs : List Rat) : List Rat :=
  let xbar := listMean xs
  let dev := xs.map (fun x => x - xbar)
  (List.range xs.length).map (fun k => (List.zipWith (fun a b => a * b) dev (dev.drop k)).sum / xs.length)

/-- Python list slicing l[:k] for an integer bound k, including the
negative-bound convention. -/
def pySliceTake (l : List α) (k : Int) : List α :=
  if 0 ≤ k then l.take k.toNat else l.take (l.length - (-k).toNat)

/-- Models statsmodels acf: normalise the first nlags+1 sample
autocovariances by the lag-0 autocovariance.  No validation of nlags is
performed. -/
def acf_sm (xs : List Rat) (nlags : Int) : List Rat :=
  let avf := acovfList xs
  (pySliceTake avf (nlags + 1)).map (fun v => v / avf.headD 0)

/-- Sample autocorrelation at lag k, input to the Yule-Walker recursion. -/
def sampleAcf (xs : List Rat) (k : Nat) : Rat :=
  (acovfList xs).getD k 0 / (acovfList xs).headD 0

/-- One step of the Durbin-Levinson recursion: from the order k-1
coefficient row to the order k row. -/
def dlNext (r : Nat → Rat) (prev : List Rat) : List Rat :=
  let k := prev.length + 1
  let num := r k - ((List.range prev.length).map (fun j => prev.getD j 0 * r (k - (j + 1)))).sum
  let den := 1 - ((List.range prev.length).map (fun j => prev.getD j 0 * r (j + 1))).sum
  let a := num / den
  ((List.range prev.length).map (fun j => prev.getD j 0 - a * prev.getD (k - (j + 2)) 0)) ++ [a]

/-- Coefficient rows of the Durbin-Levinson recursion up to order k. -/
def dlRows (r : Nat → Rat) : Nat → List Rat
  | 0 => []
  | k + 1 => dlNext r (dlRows r k)

/-- Partial autocorrelations for lags 0..nlags: lag 0 is 1 and lag k is
the last coefficient of the order-k Yule-Walker solution. -/
def pacfList (r : Nat → Rat) (nlags : Nat) : List Rat :=
  1 :: (List.range nlags).map (fun k => (dlRows r (k + 1)).getLastD 0)

/-- Models statsmodels pacf: raises when nlags is at least half the
number of observations, otherwise runs the Yule-Walker recursion on the
sample autocorrelations. -/
def pacf_sm (xs : List Rat) (nlags : Int) : Except StatError (List Rat) :=
  if ((xs.length : Int) / 2) ≤ nlags then Except.error StatError.pacfLagTooLarge
  else Except.ok (pacfList (sampleAcf xs) nlags.toNat)

/-- Period length in seconds of the pandas frequency strings the
repository uses as resampling targets. -/
def freqDelta (s : String) : Option Int :=
  if s = "h" ∨ s = "H" then some 3600
  else if s = "d" ∨ s = "D" then some 86400
  else if s = "w" ∨ s = "W" then some 604800
  else if s = "min" then some 60
  else none

/-- Python truthiness of an optional string: None and the empty string
are falsy. -/
def pyTruthy : Option String → Bool
  | none => false
  | some s => decide (s ≠ "")

/-- Mean of the values whose timestamp falls in bucket k of width d. -/
def bucketMean (l : List (Int × Rat)) (d k : Int) : Rat :=
  listMean ((l.filter (fun p => decide (p.1.fdiv d = k))).map Prod.snd)

/-- Models Series.resample(freq).mean().dropna() for a fixed-width
frequency of d seconds: one entry per occupied bucket, holding the bucket
start and the mean of the values in the bucket; empty buckets produce NaN
and are dropped, so only occupied buckets appear. -/
def resampleMean (l : List (Int × Rat)) (d : Int) : List (Int × Rat) :=
  if d ≤ 0 then []
  else
    let keys := ((l.map (fun p => p.1.fdiv d)).dedup).insertionSort (fun a b => a ≤ b)
    keys.map (fun k => (k * d, bucketMean l d k))

/-- Figure payload of plot_acf and plot_pacf: the bar values and the
significance-band half-width drawn at plus and minus that height. -/
structure AcfFig where
  values : List Rat
  critical_value : Real

/-- Figure payload of plot_distribution_histogram: the orientation string
and the plotted values; an orientation other than h or v attaches no
trace to the figure. -/
structure HistFig where
  orientation : String
  trace : Option (List Rat)
deriving DecidableEq

namespace UnivariateEDA

/-- Embeds UnivariateEDA.plot_time_series: the single trace of the
figure, drawn from the differenced series when requested.  The held
series is not reassigned. -/
def plot_time_series (e : UnivariateEDA) (differenced : Bool) :
    List (Int × Rat) × UnivariateEDA :=
  ((if differenced then seriesDiff e.ts.data else e.ts.data), e)

/-- Embeds UnivariateEDA.describe_distribution: the dictionary of scalar
statistics of the value sequence. -/
noncomputable def describe_distribution (e : UnivariateEDA) : DistributionSummary :=
  let vals := e.ts.data.map Prod.snd
  { min := qMin vals
    percentile_25 := pdQuantile vals (1 / 4)
    percentile_50 := pdQuantile vals (1 / 2)
    percentile_75 := pdQuantile vals (3 / 4)
    max := qMax vals
    range := qMax vals - qMin vals
    mean := listMean vals
    std_dev := Real.sqrt (sampleVar vals)
    skewness := pdSkew vals
    kurtosis := pdKurt vals }

/-- Embeds UnivariateEDA.make_box_plot: the plotted values, differenced
when requested.  The held series is not reassigned. -/
def make_box_plot (e : UnivariateEDA) (differenced : Bool) : List Rat × UnivariateEDA :=
  ((if differenced then seriesDiff e.ts.data else e.ts.data).map Prod.snd, e)

/-- Embeds UnivariateEDA.plot_distribution_histogram.  With the
differenced option the method first rebinds ts_to_plot to the differenced
series and then assigns it back to self.ts, mutating the engine; without
it the held series is plotted and left unchanged. -/
def plot_distribution_histogram (e : UnivariateEDA) (differenced : Bool)
    (orientation : String) : HistFig × UnivariateEDA :=
  if differenced then
    let t := seriesDiff e.ts.data
    ({ orientation := orientation
       trace := if orientation = "h" ∨ orientation = "v" then some (t.map Prod.snd) else none },
     ⟨⟨e.ts.is_datetime_index, t⟩⟩)
  else
    ({ orientation := orientation
       trace := if orientation = "h" ∨ orientation = "v" then some (e.ts.data.map Prod.snd) else none },
     e)

/-- Embeds UnivariateEDA.describe_stationarity: flatten the adfuller
output tuple into a dictionary and set the stationarity verdict to true
exactly when the p-value is below the critical value stored under the 5
percent key.  The adfuller call on the held series is abstracted as the
input record; the method takes no tuning argument. -/
def describe_stationarity (e : UnivariateEDA) (adfuller_result : AdfResult) :
    StationarityResult × UnivariateEDA :=
  (if adfuller_result.p_value < adfuller_result.critical_value_5 then
    { adf_statistic := adfuller_result.adf_statistic
      p_value := adfuller_result.p_value
      used_lag := adfuller_result.used_lag
      n_obs := adfuller_result.n_obs
      critical_value_1 := adfuller_result.critical_value_1
      critical_value_5 := adfuller_result.critical_value_5
      critical_value_10 := adfuller_result.critical_value_10
      ic_best := adfuller_result.ic_best
      stationarity := true }
  else
    { adf_statistic := adfuller_result.adf_statistic
      p_value := adfuller_result.p_value
      used_lag := adfuller_result.used_lag
      n_obs := adfuller_result.n_obs
      critical_value_1 := adfuller_result.critical_value_1
      critical_value_5 := adfuller_result.critical_value_5
      critical_value_10 := adfuller_result.critical_value_10
      ic_best := adfuller_result.ic_best
      stationarity := false }, e)

/-- Embeds UnivariateEDA.describe_acf: the acf values of the held series
for lags 0..nlags, keyed by position. -/
def describe_acf (e : UnivariateEDA) (nlags : Int) : List Rat × UnivariateEDA :=
  (acf_sm (e.ts.data.map Prod.snd) nlags, e)

/-- Embeds UnivariateEDA.describe_pacf: the pacf values of the held
series for lags 0..nlags, keyed by position. -/
def describe_pacf (e : UnivariateEDA) (nlags : Int) :
    Except StatError (List Rat) × UnivariateEDA :=
  (pacf_sm (e.ts.data.map Prod.snd) nlags, e)

/-- Embeds UnivariateEDA.plot_acf: when a truthy resampling target is
given the held series is first resampled by mean, then the acf bars and
the significance band at 1.96 over the square root of the length of the
series actually used are drawn. -/
noncomputable def plot_acf (e : UnivariateEDA) (nlags : Int)
    (resample_to : Option String) : Except StatError AcfFig × UnivariateEDA :=
  ((if pyTruthy resample_to then
      match freqDelta (resample_to.getD "") with
      | none => Except.error StatError.unknownFreq
      | some d =>
          let t := resampleMean e.ts.data d
          Except.ok { values := acf_sm (t.map Prod.snd) nlags
                      critical_value := 1.96 / Real.sqrt (t.length : Real) }
    else
      Except.ok { values := acf_sm (e.ts.data.map Prod.snd) nlags
                  critical_value := 1.96 / Real.sqrt (e.ts.data.length : Real) }), e)

/-- Embeds UnivariateEDA.plot_pacf: as plot_acf but with the pacf values,
whose lag guard can fail before the figure is built. -/
noncomputable def plot_pacf (e : UnivariateEDA) (nlags : Int)
    (resample_to : Option String) : Except StatError AcfFig × UnivariateEDA :=
  ((if pyTruthy resample_to then
      match freqDelta (resample_to.getD "") with
      | none => Except.error StatError.unknownFreq
      | some d =>
          let t := resampleMean e.ts.data d
          match pacf_sm (t.map Prod.snd) nlags with
          | Except.error err => Except.error err
          | Except.ok vals =>
              Except.ok { values := vals
                          critical_value := 1.96 / Real.sqrt (t.length : Real) }
    else
      match pacf_sm (e.ts.data.map Prod.snd) nlags with
      | Except.error err => Except.error err
      | Except.ok vals =>
          Except.ok { values := vals
                      critical_value := 1.96 / Real.sqrt (e.ts.data.length : Real) }), e)

/-- State-passing form of describe_time_index, making explicit that the
method reads but never reassigns self.ts. -/
def describe_time_index_op (e : UnivariateEDA) :
    Except EdaError TimeIndexDescription × UnivariateEDA :=
  (e.describe_time_index, e)

/-- State-passing form of describe_distribution. -/
noncomputable def describe_distribution_op (e : UnivariateEDA) :
    DistributionSummary × UnivariateEDA :=
  (e.describe_distribution, e)

end UnivariateEDA

/-- Decision table of UnivaritateEDAReport at the top of the
self-correlation panel: the inferred frequency string selects the short
lag, the long lag and the resampling target; the chain of comparisons has
no default branch, so every other value selects nothing (in the source
the lag variables are then unbound and the panel computation is
undefined).  The dictionary lookup uses a default of h, but the key is
always present in the output of describe_time_index, so the stored value
(possibly None) is what is compared. -/
def selfCorrelationParams : Option String → Option (Nat × Nat × String) :=
  fun inferred_freq =>
    if inferred_freq = some "M" then some (12, 60, "h")
    else if inferred_freq = some "h" then some (24, 168, "d")
    else if inferred_freq = some "d" then some (30, 365, "w")
    else none

/-- Significance-band half-width of a correlation figure, when the figure
was built. -/
def bandOf (x : Except StatError AcfFig) : Except StatError Real :=
  x.map (fun f => f.critical_value)

/-- A regularly sampled timestamp grid: n timestamps starting at s with
constant spacing d.  This is the shape the spec calls a regularly-sampled
series with no gaps. -/
def arithProg (s d : Int) : Nat → List Int
  | 0 => []
  | n + 1 => s :: arithProg (s + d) d n

/-- Irregular hourly-scale series: the two timestamp deltas differ, so
cadence inference returns None. -/
def edaC2 : UnivariateEDA := ⟨⟨true, [(0, 1), (43200, 2), (190800, 3)]⟩⟩

/-- Five-point hourly series used to exercise the lag handling. -/
def edaC4 : UnivariateEDA := ⟨⟨true, [(0, 1), (3600, 2), (7200, 3), (10800, 4), (14400, 5)]⟩⟩

/-- Temporal index with only two timestamps. -/
def edaC5short : UnivariateEDA := ⟨⟨true, [(0, 1), (3600, 2)]⟩⟩

/-- Series whose index is not a datetime type. -/
def edaC5bad : UnivariateEDA := ⟨⟨false, [(0, 1), (3600, 2), (7200, 3)]⟩⟩

/-- Temporal three-point hourly series. -/
def edaC5good : UnivariateEDA := ⟨⟨true, [(0, 1), (3600, 2), (7200, 3)]⟩⟩

/-- Constant-valued hourly series. -/
def lC6 : List (Int × Rat) := [(0, 5), (3600, 5), (7200, 5)]

/-- The concrete scenario of the spec: hourly values 10, 12, 11, 15, 14
for five consecutive hours starting at hour zero. -/
def edaC8 : UnivariateEDA :=
  ⟨⟨true, [(0, 10), (3600, 12), (7200, 11), (10800, 15), (14400, 14)]⟩⟩

/-- Three observations spanning two daily buckets. -/
def edaC9 : UnivariateEDA := ⟨⟨true, [(0, 1), (3600, 2), (90000, 3)]⟩⟩

/-- Irregular series whose daily fallback grid has interior gaps. -/
def edaC10 : UnivariateEDA := ⟨⟨true, [(0, 1), (43200, 2), (190800, 3)]⟩⟩

/-- The description computed for edaC10. -/
def descC10 : TimeIndexDescription :=
  { inferred_frequency := none, start_time := 0, end_time := 190800,
    n_missing_timestamps := 2, missing_timestamps := [86400, 172800] }

theorem foldl_min_mem (a : Int) (l : List Int) : List.foldl min a l ∈ a :: l := by
  induction l generalizing a with
  | nil => simp
  | cons b t ih =>
    simp only [List.foldl_cons]
    rcases List.mem_cons.mp (ih (min a b)) with h1 | h2
    · rw [h1]
      rcases min_choice a b with hc | hc
      · rw [hc]
        exact List.mem_cons_self _ _
      · rw [hc]
        exact List.mem_cons_of_mem _ (List.mem_cons_self _ _)
    · exact List.mem_cons_of_mem _ (List.mem_cons_of_mem _ h2)

theorem foldl_max_mem (a : Int) (l : List Int) : List.foldl max a l ∈ a :: l := by
  induction l generalizing a with
  | nil => simp
  | cons b t ih =>
    simp only [List.foldl_cons]
    rcases List.mem_cons.mp (ih (max a b)) with h1 | h2
    · rw [h1]
      rcases max_choice a b with hc | hc
      · rw [hc]
        exact List.mem_cons_self _ _
      · rw [hc]
        exact List.mem_cons_of_mem _ (List.mem_cons_self _ _)
    · exact List.mem_cons_of_mem _ (List.mem_cons_of_mem _ h2)

theorem foldl_min_le (a : Int) (l : List Int) : ∀ b ∈ a :: l, List.foldl min a l ≤ b := by
  induction l generalizing a with
  | nil =>
    intro b hb
    simp at hb
    simp [hb]
  | cons c t ih =>
    intro b hb
    simp only [List.foldl_cons]
    rcases List.mem_cons.mp hb with h1 | h2
    · calc List.foldl min (min a c) t ≤ min a c := ih (min a c) _ (List.mem_cons_self _ _)
        _ ≤ a := min_le_left _ _
        _ = b := h1.symm
    · rcases List.mem_cons.mp h2 with h3 | h4
      · calc List.foldl min (min a c) t ≤ min a c := ih (min a c) _ (List.mem_cons_self _ _)
          _ ≤ c := min_le_right _ _
          _ = b := h3.symm
      · exact ih (min a c) b (List.mem_cons_of_mem _ h4)

theorem le_foldl_max (a : Int) (l : List Int) : ∀ b ∈ a :: l, b ≤ List.foldl max a l := by
  induction l generalizing a with
  | nil =>
    intro b hb
    simp at hb
    simp [hb]
  | cons c t ih =>
    intro b hb
    simp only [List.foldl_cons]
    rcases List.mem_cons.mp hb with h1 | h2
    · calc b = a := h1
        _ ≤ max a c := le_max_left _ _
        _ ≤ List.foldl max (max a c) t := ih (max a c) _ (List.mem_cons_self _ _)
    · rcases List.mem_cons.mp h2 with h3 | h4
      · calc b = c := h3
          _ ≤ max a c := le_max_right _ _
          _ ≤ List.foldl max (max a c) t := ih (max a c) _ (List.mem_cons_self _ _)
      · exact ih (max a c) b (List.mem_cons_of_mem _ h4)

theorem mem_dateRange {s e d t : Int} (h : t ∈ dateRange s e d) : s ≤ t ∧ t ≤ e := by
  unfold dateRange at h
  split at h
  · simp at h
  · rename_i hcond
    push_neg at hcond
    obtain ⟨hd, hse⟩ := hcond
    simp only [List.mem_map, List.mem_range] at h
    obtain ⟨k, hk, rfl⟩ := h
    constructor
    · have h0 : (0 : Int) ≤ (k : Int) * d :=
        mul_nonneg (Int.natCast_nonneg k) (le_of_lt hd)
      linarith
    · have hdivnn : 0 ≤ (e - s) / d := Int.ediv_nonneg (by linarith) (le_of_lt hd)
      have hk' : (k : Int) ≤ (e - s) / d := by omega
      have hmul : (k : Int) * d ≤ (e - s) / d * d :=
        mul_le_mul_of_nonneg_right hk' (le_of_lt hd)
      have hmod := Int.ediv_add_emod (e - s) d
      have hmodnn := Int.emod_nonneg (e - s) (ne_of_gt hd)
      have : (e - s) / d * d ≤ e - s := by linarith [mul_comm ((e - s) / d) d]
      linarith

theorem arithProg_eq_map (s d : Int) (n : Nat) :
    arithProg s d n = (List.range n).map (fun k : Nat => s + (k : Int) * d) := by
  induction n generalizing s with
  | zero => rfl
  | succ m ih =>
    rw [List.range_succ_eq_map, List.map_cons, List.map_map]
    show s :: arithProg (s + d) d m = _
    congr 1
    · simp
    · rw [ih (s + d)]
      apply List.map_congr_left
      intro k _
      simp only [Function.comp_apply]
      push_cast
      ring

theorem mem_arithProg {s d x : Int} {n : Nat} (h : x ∈ arithProg s d n) :
    ∃ k : Nat, k < n ∧ x = s + (k : Int) * d := by
  rw [arithProg_eq_map] at h
  simp only [List.mem_map, List.mem_range] at h
  obtain ⟨k, hk, rfl⟩ := h
  exact ⟨k, hk, rfl⟩

theorem deltasAre_arithProg (d : Int) :
    ∀ (n : Nat) (s : Int), deltasAre d (arithProg s d n) = true := by
  intro n
  induction n with
  | zero => intro s; rfl
  | succ m ih =>
    intro s
    cases m with
    | zero => rfl
    | succ m' =>
      show deltasAre d (s :: (s + d) :: arithProg (s + d + d) d m') = true
      simp only [deltasAre, Bool.and_eq_true, decide_eq_true_eq]
      refine ⟨by ring, ?_⟩
      exact ih (s + d)

theorem inferFreq_arithProg (s d : Int) (hd : 0 < d) (m : Nat) :
    inferFreq (arithProg s d (m + 3)) = Except.ok (some d) := by
  have hdel := deltasAre_arithProg d (m + 3) s
  have hshape : arithProg s d (m + 3) =
      s :: (s + d) :: (s + d + d) :: arithProg (s + d + d + d) d m := rfl
  rw [hshape] at hdel ⊢
  simp only [inferFreq]
  have hd' : s + d - s = d := by ring
  rw [hd', if_pos ⟨hd, hdel⟩]

theorem foldl_min_arithProg (s d : Int) (hd : 0 ≤ d) (m : Nat) :
    List.foldl min s (arithProg (s + d) d m) = s := by
  apply le_antisymm
  · exact foldl_min_le s _ s (List.mem_cons_self _ _)
  · rcases List.mem_cons.mp (foldl_min_mem s (arithProg (s + d) d m)) with h1 | h2
    · rw [h1]
    · obtain ⟨k, hk, hx⟩ := mem_arithProg h2
      rw [hx]
      have hkd : (0 : Int) ≤ (k : Int) * d := mul_nonneg (Int.natCast_nonneg k) hd
      linarith

theorem foldl_max_arithProg (s d : Int) (hd : 0 ≤ d) (m : Nat) :
    List.foldl max s (arithProg (s + d) d m) = s + (m : Int) * d := by
  rcases Nat.eq_zero_or_pos m with hm | hm
  · subst hm
    simp [arithProg]
  · apply le_antisymm
    · rcases List.mem_cons.mp (foldl_max_mem s (arithProg (s + d) d m)) with h1 | h2
      · rw [h1]
        have hkd : (0 : Int) ≤ (m : Int) * d := mul_nonneg (Int.natCast_nonneg m) hd
        linarith
      · obtain ⟨k, hk, hx⟩ := mem_arithProg h2
        rw [hx]
        have hk1 : (k : Int) + 1 ≤ (m : Int) := by exact_mod_cast hk
        have hmul := mul_le_mul_of_nonneg_right hk1 hd
        have hexp : ((k : Int) + 1) * d = (k : Int) * d + d := by ring
        linarith
    · apply le_foldl_max
      obtain ⟨m', rfl⟩ : ∃ m', m = m' + 1 := ⟨m - 1, by omega⟩
      apply List.mem_cons_of_mem
      rw [arithProg_eq_map]
      simp only [List.mem_map, List.mem_range]
      refine ⟨m', Nat.lt_succ_self m', by push_cast; ring⟩

theorem dateRange_arithProg (s d : Int) (hd : 0 < d) (m : Nat) :
    dateRange s (s + (m : Int) * d) d = arithProg s d (m + 1) := by
  have hnn : (0 : Int) ≤ (m : Int) * d := mul_nonneg (Int.natCast_nonneg m) (le_of_lt hd)
  have hcond : ¬(d ≤ 0 ∨ s + (m : Int) * d < s) := by
    push_neg
    exact ⟨hd, by linarith⟩
  unfold dateRange
  rw [if_neg hcond]
  have h1 : s + (m : Int) * d - s = (m : Int) * d := by ring
  rw [h1, Int.mul_ediv_cancel _ (ne_of_gt hd), Int.toNat_natCast, arithProg_eq_map]

theorem describe_flag_false {e : UnivariateEDA} (h : e.ts.is_datetime_index = false) :
    e.describe_time_index = Except.error EdaError.invalidIndexType := by
  simp [UnivariateEDA.describe_time_index, h]

theorem describe_inferFreq_error {e : UnivariateEDA} {err : EdaError}
    (hflag : e.ts.is_datetime_index = true)
    (h : inferFreq (e.ts.data.map Prod.fst) = Except.error err) :
    e.describe_time_index = Except.error err := by
  simp [UnivariateEDA.describe_time_index, hflag, h, Except.bind]

theorem inferFreq_ok_shape {l : List Int} {fr : Option Int}
    (h : inferFreq l = Except.ok fr) : ∃ a b c r, l = a :: b :: c :: r := by
  match l, h with
  | a :: b :: c :: r, _ => exact ⟨a, b, c, r, rfl⟩

theorem inferFreq_error_eq {l : List Int} {err : EdaError}
    (h : inferFreq l = Except.error err) : err = EdaError.needThreeDates := by
  match l, h with
  | [], h => simpa [inferFreq] using h.symm
  | [a], h => simpa [inferFreq] using h.symm
  | [a, b], h => simpa [inferFreq] using h.symm
  | a :: b :: c :: r, h =>
    simp only [inferFreq] at h
    split at h <;> simp at h

theorem inferFreq_short {l : List Int} (h : l.length < 3) :
    inferFreq l = Except.error EdaError.needThreeDates := by
  match l with
  | [] => rfl
  | [a] => rfl
  | [a, b] => rfl
  | a :: b :: c :: r => simp at h; omega

theorem inferFreq_long_ok {a b c : Int} (r : List Int) :
    ∃ fr, inferFreq (a :: b :: c :: r) = Except.ok fr := by
  simp only [inferFreq]
  split
  · exact ⟨some (b - a), rfl⟩
  · exact ⟨none, rfl⟩

theorem describe_time_index_eq (e : UnivariateEDA) (x : Int) (r : List Int) (fr : Option Int)
    (hflag : e.ts.is_datetime_index = true)
    (hidx : e.ts.data.map Prod.fst = x :: r)
    (hfr : inferFreq (x :: r) = Except.ok fr) :
    e.describe_time_index =
      Except.ok
        { inferred_frequency := fr
          start_time := List.foldl min x r
          end_time := List.foldl max x r
          n_missing_timestamps := ((dateRange (List.foldl min x r) (List.foldl max x r)
              (fr.getD 86400)).filter (fun t => decide (t ∉ x :: r))).length
          missing_timestamps := (dateRange (List.foldl min x r) (List.foldl max x r)
              (fr.getD 86400)).filter (fun t => decide (t ∉ x :: r)) } := by
  unfold UnivariateEDA.describe_time_index
  rw [hflag]
  simp [hidx, hfr, Except.bind]

theorem get_opt_tail_eq (l : List α) (i : Nat) : l.tail.get? i = l.get? (i + 1) := by
  cases l <;> rfl

theorem mem_zipWith_exists {f : α → β → γ} {as : List α} {bs : List β} {c : γ}
    (h : c ∈ List.zipWith f as bs) : ∃ a ∈ as, ∃ b ∈ bs, c = f a b := by
  induction as generalizing bs with
  | nil => simp at h
  | cons a t ih =>
    cases bs with
    | nil => simp at h
    | cons b u =>
      simp only [List.zipWith_cons_cons, List.mem_cons] at h
      rcases h with h1 | h2
      · exact ⟨a, List.mem_cons_self _ _, b, List.mem_cons_self _ _, h1⟩
      · obtain ⟨x, hx, y, hy, hc⟩ := ih h2
        exact ⟨x, List.mem_cons_of_mem _ hx, y, List.mem_cons_of_mem _ hy, hc⟩

theorem seriesDiff_cons_cons (a b : Int × Rat) (t : List (Int × Rat)) :
    seriesDiff (a :: b :: t) = (b.1, b.2 - a.2) :: seriesDiff (b :: t) := rfl

theorem seriesDiff_length (l : List (Int × Rat)) : (seriesDiff l).length = l.length - 1 := by
  unfold seriesDiff
  rw [List.length_zipWith, List.length_tail]
  omega

theorem seriesDiff_map_fst : ∀ l : List (Int × Rat),
    (seriesDiff l).map Prod.fst = (l.map Prod.fst).tail
  | [] => rfl
  | [a] => rfl
  | a :: b :: t => by
    rw [seriesDiff_cons_cons]
    simp only [List.map_cons, List.tail_cons]
    rw [seriesDiff_map_fst (b :: t)]
    simp

theorem list_three_shape {l : List Int} (h : 3 ≤ l.length) :
    ∃ a b c r, l = a :: b :: c :: r := by
  match l with
  | a :: b :: c :: r => exact ⟨a, b, c, r, rfl⟩
  | [] => norm_num at h
  | [a] => norm_num at h
  | [a, b] => norm_num at h

/-- C1: describeStationarity returns a verdict computed by a fixed rule:
for every held series and every adfuller output, the stationarity flag of
the returned result is true exactly when the p-value is strictly less
than the critical value stored under the 5 percent key of the same
returned result, and false otherwise; the method takes no argument that
could alter the rule. -/
theorem C1_stationarity_fixed_rule (e : UnivariateEDA) (adf : AdfResult) :
    ((e.describe_stationarity adf).1.stationarity = true ↔
      (e.describe_stationarity adf).1.p_value <
        (e.describe_stationarity adf).1.critical_value_5) ∧
    ((e.describe_stationarity adf).1.stationarity = false ↔
      ¬(e.describe_stationarity adf).1.p_value <
        (e.describe_stationarity adf).1.critical_value_5) := by
  unfold UnivariateEDA.describe_stationarity
  by_cases h : adf.p_value < adf.critical_value_5
  · simp [h]
  · simp [h]

/-- C3: the cadence-to-parameter policy maps the monthly token M to short
lag 12, long lag 60 and hourly resampling, the hourly token h to 24, 168
and daily, the daily token d to 30, 365 and weekly, and selects no
parameters for None and for every other token: the comparison chain has
no default branch. -/
theorem C3_cadence_parameter_policy :
    selfCorrelationParams (some "M") = some (12, 60, "h") ∧
    selfCorrelationParams (some "h") = some (24, 168, "d") ∧
    selfCorrelationParams (some "d") = some (30, 365, "w") ∧
    selfCorrelationParams none = none ∧
    (∀ s : String, s ≠ "M" → s ≠ "h" → s ≠ "d" →
      selfCorrelationParams (some s) = none) := by
  refine ⟨rfl, rfl, rfl, rfl, ?_⟩
  intro s h1 h2 h3
  simp [selfCorrelationParams, h1, h2, h3]

theorem C3_cadence_parameter_policy_witness :
    selfCorrelationParams (some "W") = none ∧
    selfCorrelationParams (some "min") = none :=
  ⟨C3_cadence_parameter_policy.2.2.2.2 "W" (by decide) (by decide) (by decide),
   C3_cadence_parameter_policy.2.2.2.2 "min" (by decide) (by decide) (by decide)⟩

/-- C6: for every held series of length at least two, the differenced
series has length n - 1, its entry i pairs the timestamp of source entry
i + 1 with the difference of values i + 1 and i (so the first timestamp
is dropped from the index), and differencing a constant-valued series
yields all zeros. -/
theorem C6_differenced_series (l : List (Int × Rat)) (h : 2 ≤ l.length) :
    (seriesDiff l).length = l.length - 1 ∧
    (∀ (i : Nat) (p q : Int × Rat), l.get? i = some p → l.get? (i + 1) = some q →
      (seriesDiff l).get? i = some (q.1, q.2 - p.2)) ∧
    (seriesDiff l).map Prod.fst = (l.map Prod.fst).tail ∧
    (∀ c : Rat, (∀ p ∈ l, p.2 = c) → ∀ q ∈ seriesDiff l, q.2 = 0) := by
  refine ⟨seriesDiff_length l, ?_, seriesDiff_map_fst l, ?_⟩
  · intro i p q hp hq
    unfold seriesDiff
    rw [List.get?_zipWith_eq_some]
    refine ⟨p, q, hp, ?_, rfl⟩
    rw [get_opt_tail_eq]
    exact hq
  · intro c hc q hq
    unfold seriesDiff at hq
    obtain ⟨a, ha, b, hb, rfl⟩ := mem_zipWith_exists hq
    have hb' : b ∈ l := List.mem_of_mem_tail hb
    show b.2 - a.2 = 0
    rw [hc a ha, hc b hb', sub_self]

theorem C6_differenced_series_witness :
    (seriesDiff lC6).length = lC6.length - 1 ∧
    (seriesDiff lC6).get? 0 = some (3600, 0) := by
  have h := C6_differenced_series lC6 (by decide)
  refine ⟨h.1, ?_⟩
  have h2 := h.2.1 0 (0, 5) (3600, 5) rfl rfl
  simpa using h2

/-- C7: the histogram operation invoked with the differenced option
overwrites the held series with its differenced version, while every
other engine operation, and the histogram without that option, returns
the engine state unchanged. -/
theorem C7_histogram_side_effect (e : UnivariateEDA) :
    (∀ o : String, (e.plot_distribution_histogram true o).2.ts.data = seriesDiff e.ts.data) ∧
    (∀ o : String, (e.plot_distribution_histogram false o).2 = e) ∧
    e.describe_time_index_op.2 = e ∧
    e.describe_distribution_op.2 = e ∧
    (∀ adf : AdfResult, (e.describe_stationarity adf).2 = e) ∧
    (∀ nlags : Int, (e.describe_acf nlags).2 = e) ∧
    (∀ nlags : Int, (e.describe_pacf nlags).2 = e) ∧
    (∀ (nlags : Int) (rt : Option String), (e.plot_acf nlags rt).2 = e) ∧
    (∀ (nlags : Int) (rt : Option String), (e.plot_pacf nlags rt).2 = e) ∧
    (∀ b : Bool, (e.plot_time_series b).2 = e) ∧
    (∀ b : Bool, (e.make_box_plot b).2 = e) :=
  ⟨fun _ => rfl, fun _ => rfl, rfl, rfl, fun _ => rfl, fun _ => rfl, fun _ => rfl,
   fun _ _ => rfl, fun _ _ => rfl, fun _ => rfl, fun _ => rfl⟩

/-- C9: for every ACF or PACF figure that is built, the significance-band
half-width equals 1.96 divided by the square root of the length of the
series actually used: the resampled series when a truthy resampling
target with a recognised frequency is given, the held series otherwise. -/
theorem C9_significance_band (e : UnivariateEDA) (nlags : Int) :
    (bandOf (e.plot_acf nlags none).1 =
      Except.ok (1.96 / Real.sqrt (e.ts.data.length : Real))) ∧
    (∀ v : List Rat, pacf_sm (e.ts.data.map Prod.snd) nlags = Except.ok v →
      bandOf (e.plot_pacf nlags none).1 =
        Except.ok (1.96 / Real.sqrt (e.ts.data.length : Real))) ∧
    (∀ (s : String) (d : Int), freqDelta s = some d → s ≠ "" →
      bandOf (e.plot_acf nlags (some s)).1 =
        Except.ok (1.96 / Real.sqrt ((resampleMean e.ts.data d).length : Real))) ∧
    (∀ (s : String) (d : Int) (v : List Rat), freqDelta s = some d → s ≠ "" →
      pacf_sm ((resampleMean e.ts.data d).map Prod.snd) nlags = Except.ok v →
      bandOf (e.plot_pacf nlags (some s)).1 =
        Except.ok (1.96 / Real.sqrt ((resampleMean e.ts.data d).length : Real))) := by
  refine ⟨rfl, ?_, ?_, ?_⟩
  · intro v hv
    simp [UnivariateEDA.plot_pacf, pyTruthy, hv, bandOf, Except.map]
  · intro s d hd hs
    have ht : pyTruthy (some s) = true := by simp [pyTruthy, hs]
    simp [UnivariateEDA.plot_acf, ht, hd, bandOf, Except.map]
  · intro s d v hd hs hv
    have ht : pyTruthy (some s) = true := by simp [pyTruthy, hs]
    simp [UnivariateEDA.plot_pacf, ht, hd, hv, bandOf, Except.map]

theorem C9_significance_band_witness :
    bandOf (edaC9.plot_acf 0 (some "d")).1 =
      Except.ok (1.96 / Real.sqrt ((resampleMean edaC9.ts.data 86400).length : Real)) ∧
    bandOf (edaC9.plot_pacf 0 (some "d")).1 =
      Except.ok (1.96 / Real.sqrt ((resampleMean edaC9.ts.data 86400).length : Real)) := by
  have h := C9_significance_band edaC9 0
  refine ⟨h.2.2.1 "d" 86400 (by decide) (by decide), ?_⟩
  refine h.2.2.2 "d" 86400 [1] (by decide) (by decide) ?_
  decide

/-- C2 counterexample: on a datetime-indexed series whose deltas admit no
single cadence (so inference returns None), describe_time_index does not
report zero missing timestamps: the freq None argument of date_range
falls back to a daily grid, and two daily grid points are absent from the
index. -/
theorem C2_counterexample :
    inferFreq (edaC2.ts.data.map Prod.fst) = Except.ok none ∧
    edaC2.describe_time_index =
      Except.ok
        { inferred_frequency := none
          start_time := 0
          end_time := 190800
          n_missing_timestamps := 2
          missing_timestamps := [86400, 172800] } ∧
    edaC2.describe_time_index.map (fun desc => desc.n_missing_timestamps) ≠
      Except.ok 0 := by
  refine ⟨by decide, by decide, by decide⟩

/-- C2 amended: when cadence inference fails on a datetime-indexed
series, describe_time_index still returns successfully, but the complete
grid is built at the daily fallback frequency used by date_range when
freq is None; the reported missing timestamps are the daily grid points
absent from the index, which need not be zero. -/
theorem C2_daily_fallback (e : UnivariateEDA) (x : Int) (r : List Int)
    (hflag : e.ts.is_datetime_index = true)
    (hidx : e.ts.data.map Prod.fst = x :: r)
    (hfr : inferFreq (x :: r) = Except.ok none) :
    e.describe_time_index =
      Except.ok
        { inferred_frequency := none
          start_time := List.foldl min x r
          end_time := List.foldl max x r
          n_missing_timestamps := ((dateRange (List.foldl min x r) (List.foldl max x r)
              86400).filter (fun t => decide (t ∉ x :: r))).length
          missing_timestamps := (dateRange (List.foldl min x r) (List.foldl max x r)
              86400).filter (fun t => decide (t ∉ x :: r)) } := by
  have h := describe_time_index_eq e x r none hflag hidx hfr
  simpa using h

theorem C2_daily_fallback_witness :
    edaC2.describe_time_index =
      Except.ok
        { inferred_frequency := none
          start_time := List.foldl min 0 [43200, 190800]
          end_time := List.foldl max 0 [43200, 190800]
          n_missing_timestamps := ((dateRange (List.foldl min 0 [43200, 190800])
              (List.foldl max 0 [43200, 190800]) 86400).filter
              (fun t => decide (t ∉ ([0, 43200, 190800] : List Int)))).length
          missing_timestamps := (dateRange (List.foldl min 0 [43200, 190800])
              (List.foldl max 0 [43200, 190800]) 86400).filter
              (fun t => decide (t ∉ ([0, 43200, 190800] : List Int))) } :=
  C2_daily_fallback edaC2 0 [43200, 190800] rfl rfl (by decide)

/-- C4 counterexample: describe_acf with the non-positive lag count 0
succeeds and returns the lag 0 coefficient 1, and describe_pacf with the
lag count 4, a positive integer strictly less than the series length 5,
fails with the library lag guard: no InvalidLagCount validation of the
claimed shape exists. -/
theorem C4_counterexample :
    (edaC4.describe_acf 0).1 = [1] ∧
    (edaC4.describe_pacf 4).1 = Except.error StatError.pacfLagTooLarge := by
  constructor
  · show acf_sm (edaC4.ts.data.map Prod.snd) 0 = [1]
    have hv : edaC4.ts.data.map Prod.snd = [1, 2, 3, 4, 5] := by norm_num [edaC4]
    rw [hv]
    norm_num [acf_sm, acovfList, listMean, pySliceTake, List.range_succ]
  · decide

/-- C4 amended: the engine performs no lag-count validation of its own.
For every nonnegative requested lag count, describe_acf succeeds,
returning min(nlags + 1, n) coefficients (the slice truncates at the
available autocovariances), and describe_pacf succeeds exactly when the
lag count is strictly less than half the series length, failing with the
statsmodels pacf guard otherwise. -/
theorem C4_lag_validation (e : UnivariateEDA) (nlags : Int) (h : 0 ≤ nlags) :
    (e.describe_acf nlags).1.length = min (nlags.toNat + 1) e.ts.data.length ∧
    (((e.describe_pacf nlags).1.isOk = true) ↔
      nlags < (e.ts.data.length : Int) / 2) := by
  constructor
  · show (acf_sm (e.ts.data.map Prod.snd) nlags).length = _
    simp only [acf_sm, pySliceTake]
    rw [if_pos (show (0 : Int) ≤ nlags + 1 by omega)]
    rw [List.length_map, List.length_take]
    have hlen : (acovfList (e.ts.data.map Prod.snd)).length = e.ts.data.length := by
      simp [acovfList]
    rw [hlen]
    congr 1
    omega
  · show ((pacf_sm (e.ts.data.map Prod.snd) nlags).isOk = true) ↔ _
    unfold pacf_sm
    rw [List.length_map]
    split
    · rename_i hguard
      constructor
      · intro hfalse
        simp [Except.isOk, Except.toBool] at hfalse
      · intro hlt
        omega
    · rename_i hguard
      constructor
      · intro _
        omega
      · intro _
        simp [Except.isOk, Except.toBool]

theorem C4_lag_validation_witness :
    (edaC4.describe_acf 2).1.length = min ((2 : Int).toNat + 1) edaC4.ts.data.length ∧
    (((edaC4.describe_pacf 2).1.isOk = true) ↔
      (2 : Int) < (edaC4.ts.data.length : Int) / 2) :=
  C4_lag_validation edaC4 2 (by decide)

/-- C5 counterexample: a series with a temporal (datetime) index of only
two timestamps makes describe_time_index raise the frequency-inference
error, so an error is surfaced even though the index is temporal, and it
is not the InvalidIndexType error: the if-and-only-if of the claim fails
in its only-if direction. -/
theorem C5_counterexample :
    edaC5short.ts.is_datetime_index = true ∧
    edaC5short.describe_time_index = Except.error EdaError.needThreeDates ∧
    EdaError.needThreeDates ≠ EdaError.invalidIndexType := by
  refine ⟨rfl, by decide, by decide⟩

/-- C5 amended: describe_time_index raises InvalidIndexType exactly when
the held index is not a temporal type, with that check performed first;
when the index is temporal the operation returns the description provided
the index holds at least three timestamps, and raises the separate
frequency-inference error when it holds fewer. -/
theorem C5_index_type_check (e : UnivariateEDA) :
    (e.describe_time_index = Except.error EdaError.invalidIndexType ↔
      e.ts.is_datetime_index = false) ∧
    (e.ts.is_datetime_index = true → 3 ≤ e.ts.data.length →
      (e.describe_time_index).isOk = true) ∧
    (e.ts.is_datetime_index = true → e.ts.data.length < 3 →
      e.describe_time_index = Except.error EdaError.needThreeDates) := by
  refine ⟨⟨?_, fun h => describe_flag_false h⟩, ?_, ?_⟩
  · intro h
    by_contra hne
    have hflag : e.ts.is_datetime_index = true := by
      cases hb : e.ts.is_datetime_index
      · exact absurd hb hne
      · rfl
    cases hfr : inferFreq (e.ts.data.map Prod.fst) with
    | error err =>
      rw [describe_inferFreq_error hflag hfr] at h
      have herr := inferFreq_error_eq hfr
      rw [Except.error.injEq] at h
      rw [herr] at h
      exact absurd h (by simp)
    | ok fr =>
      obtain ⟨a, b, c, r, hshape⟩ := inferFreq_ok_shape hfr
      have hfr' : inferFreq (a :: b :: c :: r) = Except.ok fr := by
        rw [← hshape]
        exact hfr
      have heq := describe_time_index_eq e a (b :: c :: r) fr hflag hshape hfr'
      rw [heq] at h
      exact absurd h (by simp)
  · intro hflag hlen
    have h3 : 3 ≤ (e.ts.data.map Prod.fst).length := by
      rw [List.length_map]
      exact hlen
    obtain ⟨a, b, c, r, hshape⟩ := list_three_shape h3
    obtain ⟨fr, hfr⟩ := inferFreq_long_ok (a := a) (b := b) (c := c) r
    have heq := describe_time_index_eq e a (b :: c :: r) fr hflag hshape hfr
    rw [heq]
    rfl
  · intro hflag hlen
    apply describe_inferFreq_error hflag
    apply inferFreq_short
    rw [List.length_map]
    exact hlen

theorem C5_index_type_check_witness :
    (edaC5good.describe_time_index).isOk = true ∧
    edaC5bad.describe_time_index = Except.error EdaError.invalidIndexType := by
  constructor
  · exact (C5_index_type_check edaC5good).2.1 rfl (by decide)
  · exact (C5_index_type_check edaC5bad).1.mpr rfl

/-- C8: for every datetime-indexed series sampled on a regular grid of n
at least 3 timestamps with positive spacing d, describe_time_index
succeeds and reports the inferred cadence d, zero missing timestamps, an
empty missing list, start equal to the first (minimum) timestamp and end
equal to the last (maximum) timestamp. -/
theorem C8_regular_series (e : UnivariateEDA) (s d : Int) (n : Nat)
    (hflag : e.ts.is_datetime_index = true)
    (hidx : e.ts.data.map Prod.fst = arithProg s d n)
    (hd : 0 < d) (hn : 3 ≤ n) :
    e.describe_time_index =
      Except.ok
        { inferred_frequency := some d
          start_time := s
          end_time := s + ((n : Int) - 1) * d
          n_missing_timestamps := 0
          missing_timestamps := [] } := by
  obtain ⟨m, rfl⟩ : ∃ m, n = m + 3 := ⟨n - 3, by omega⟩
  have hshape : arithProg s d (m + 3) = s :: arithProg (s + d) d (m + 2) := rfl
  have hfr : inferFreq (s :: arithProg (s + d) d (m + 2)) = Except.ok (some d) := by
    rw [← hshape]
    exact inferFreq_arithProg s d hd m
  have heq := describe_time_index_eq e s (arithProg (s + d) d (m + 2)) (some d) hflag
    (by rw [hidx, hshape]) hfr
  rw [heq]
  have hmin := foldl_min_arithProg s d (le_of_lt hd) (m + 2)
  have hmax := foldl_max_arithProg s d (le_of_lt hd) (m + 2)
  rw [hmin, hmax, Option.getD_some]
  have hgrid : dateRange s (s + ((m + 2 : Nat) : Int) * d) d = arithProg s d (m + 3) :=
    dateRange_arithProg s d hd (m + 2)
  rw [hgrid, ← hshape]
  have hfilter : (arithProg s d (m + 3)).filter
      (fun t => decide (t ∉ arithProg s d (m + 3))) = [] := by
    rw [List.filter_eq_nil_iff]
    intro a ha
    simp [ha]
  rw [hfilter]
  have hcast : s + ((m + 2 : Nat) : Int) * d = s + (((m + 3 : Nat) : Int) - 1) * d := by
    push_cast
    ring
  rw [hcast]
  rfl

theorem C8_regular_series_witness :
    edaC8.describe_time_index =
      Except.ok
        { inferred_frequency := some 3600
          start_time := 0
          end_time := 14400
          n_missing_timestamps := 0
          missing_timestamps := [] } := by
  have h := C8_regular_series edaC8 0 3600 5 rfl (by decide) (by decide) (by decide)
  simpa using h

/-- C10: in every result successfully returned by describe_time_index,
the reported missing-timestamp count equals the length of the reported
missing-timestamp list, and every listed missing timestamp lies strictly
between the reported start and end timestamps. -/
theorem C10_missing_consistency (e : UnivariateEDA) (desc : TimeIndexDescription)
    (h : e.describe_time_index = Except.ok desc) :
    desc.n_missing_timestamps = desc.missing_timestamps.length ∧
    ∀ t ∈ desc.missing_timestamps, desc.start_time < t ∧ t < desc.end_time := by
  cases hb : e.ts.is_datetime_index with
  | false =>
    rw [describe_flag_false hb] at h
    exact absurd h (by simp)
  | true =>
    cases hfr : inferFreq (e.ts.data.map Prod.fst) with
    | error err =>
      rw [describe_inferFreq_error hb hfr] at h
      exact absurd h (by simp)
    | ok fr =>
      obtain ⟨a, b, c, r, hshape⟩ := inferFreq_ok_shape hfr
      have hfr' : inferFreq (a :: b :: c :: r) = Except.ok fr := by
        rw [← hshape]
        exact hfr
      have heq := describe_time_index_eq e a (b :: c :: r) fr hb hshape hfr'
      rw [heq] at h
      rw [Except.ok.injEq] at h
      subst h
      constructor
      · rfl
      · intro t ht
        rw [List.mem_filter] at ht
        obtain ⟨hgrid, hnot⟩ := ht
        rw [decide_eq_true_eq] at hnot
        have hbounds := mem_dateRange hgrid
        have hminmem : List.foldl min a (b :: c :: r) ∈ a :: b :: c :: r :=
          foldl_min_mem _ _
        have hmaxmem : List.foldl max a (b :: c :: r) ∈ a :: b :: c :: r :=
          foldl_max_mem _ _
        constructor
        · rcases lt_or_eq_of_le hbounds.1 with hlt | heq2
          · exact hlt
          · rw [heq2] at hminmem
            exact absurd hminmem hnot
        · rcases lt_or_eq_of_le hbounds.2 with hlt | heq2
          · exact hlt
          · rw [← heq2] at hmaxmem
            exact absurd hmaxmem hnot

theorem C10_missing_consistency_witness :
    descC10.n_missing_timestamps = descC10.missing_timestamps.length ∧
    (descC10.start_time < 86400 ∧ (86400 : Int) < descC10.end_time) := by
  have h := C10_missing_consistency edaC10 descC10 (by decide)
  exact ⟨h.1, h.2 86400 (by decide)⟩
